import Mathlib

/-!
Verification development for the speed-limit detection-state coordinator.

The definitions below are a shallow embedding of the Python sources:

* `src/python-container/src/speed_detector/shared/state.py`
  (`TimeCondition`, `SpeedLimitDetection`, `ConfirmedSpeedLimit`,
  `CurrentState`, `DetectionStatus`),
* `src/old/python-container/src/speed_detector/pipeline/state_manager.py`
  (`StateManager.update` and its two handlers),
* `src/old/python-container/src/speed_detector/shared/memory.py`
  (`SharedMemory.get_state` shallow-copy semantics).

Modelling conventions:

* Python `datetime` timestamps are injected as natural-number instants
  (`datetime.now()` becomes an explicit `now` argument, as the spec's
  "time source injectable" interface prescribes).
* A Python `datetime.time`-of-day value is modelled as the number of
  microseconds since midnight (`datetime.time` comparison is
  lexicographic on (hour, minute, second, microsecond), which this
  order-embeds exactly).
* Python strings are modelled as `List Char`; `\d` in the regular
  expression is modelled as the ASCII digits (the inputs relevant to the
  claims are all ASCII).
* The `bbox`, `confidence` and `timestamp` fields of
  `SpeedLimitDetection` are omitted: they are floats/creation-time
  stamps that are never read by any of the modelled code paths (the
  state machine matches on `speed_limit` only and copies
  `time_condition`), and no claim mentions them.
-/

/-- Detection status enum from `shared/state.py` (`DetectionStatus`). -/
inductive DetectionStatus where
  | no_detection
  | detecting
  | confirmed
deriving DecidableEq, Repr

/-- Time-based condition from `shared/state.py` (`TimeCondition`): a daily
clock-time range, fields in Python dataclass order
(`start_hour, end_hour, start_minute = 0, end_minute = 0`). -/
structure TimeCondition where
  start_hour : Nat
  end_hour : Nat
  start_minute : Nat
  end_minute : Nat
deriving DecidableEq, Repr

/-- Microseconds since midnight of the clock time `time(h, m)`; the
instant model for Python `datetime.time` values. -/
def timeOfDay (h m : Nat) : Nat :=
  ((h * 60 + m) * 60) * 1000000

/-- The condition's start instant, Python's `time(self.start_hour, self.start_minute)`. -/
def TimeCondition.startInstant (tc : TimeCondition) : Nat :=
  timeOfDay tc.start_hour tc.start_minute

/-- The condition's end instant, Python's `time(self.end_hour, self.end_minute)`. -/
def TimeCondition.endInstant (tc : TimeCondition) : Nat :=
  timeOfDay tc.end_hour tc.end_minute

/-- `TimeCondition.is_active` from `shared/state.py`: the current instant is
injected (`current_time` parameter); the two branches mirror the source's
non-wrapping and overnight cases. -/
def TimeCondition.is_active (tc : TimeCondition) (current_time : Nat) : Bool :=
  if tc.startInstant ≤ tc.endInstant then
    decide (tc.startInstant ≤ current_time ∧ current_time ≤ tc.endInstant)
  else
    decide (current_time ≥ tc.startInstant ∨ current_time ≤ tc.endInstant)

/-- One frame's detection from `shared/state.py` (`SpeedLimitDetection`),
restricted to the fields read by the state machine. -/
structure SpeedLimitDetection where
  speed_limit : Nat
  time_condition : Option TimeCondition
deriving DecidableEq, Repr

/-- Confirmed speed limit from `shared/state.py` (`ConfirmedSpeedLimit`). -/
structure ConfirmedSpeedLimit where
  speed_limit : Nat
  time_condition : Option TimeCondition
  confirmed_at : Nat
  last_seen_at : Nat
  detection_count : Nat
deriving DecidableEq, Repr

/-- `ConfirmedSpeedLimit.is_currently_active` with the instant injected. -/
def ConfirmedSpeedLimit.is_currently_active (c : ConfirmedSpeedLimit) (now : Nat) : Bool :=
  match c.time_condition with
  | none => true
  | some tc => tc.is_active now

/-- The coordinator state from `shared/state.py` (`CurrentState`). -/
structure CurrentState where
  status : DetectionStatus
  confirmed_speed_limit : Option ConfirmedSpeedLimit
  pending_detection : Option SpeedLimitDetection
  pending_count : Nat
  last_updated : Nat
deriving DecidableEq, Repr

/-- `CurrentState.get_effective_speed_limit` from `shared/state.py`, with the
query instant injected (the source reads `datetime.now()` inside
`is_currently_active`). -/
def CurrentState.get_effective_speed_limit (st : CurrentState) (now : Nat) : Option Nat :=
  match st.confirmed_speed_limit with
  | none => none
  | some c => if c.is_currently_active now = false then none else some c.speed_limit

/-- Internal fields of `StateManager` from `pipeline/state_manager.py`
(`_pending_speed_limit`, `_pending_time_condition`, `_pending_count`). -/
structure ManagerState where
  pendingSpeedLimit : Option Nat
  pendingTimeCondition : Option TimeCondition
  pendingCount : Nat
deriving DecidableEq, Repr

/-- Combined state of the `StateManager` and the `CurrentState` it keeps in
`SharedMemory` (the single-writer store; `update` reads the state, edits
it, and writes it back, so its net effect is a pure function of this
pair). -/
structure MachineState where
  mgr : ManagerState
  mem : CurrentState
deriving DecidableEq, Repr

/-- Initial state: a fresh `StateManager` next to `CurrentState()`'s
defaults (`NO_DETECTION`, nothing confirmed, nothing pending). -/
def initialMachine : MachineState :=
  { mgr := { pendingSpeedLimit := none, pendingTimeCondition := none, pendingCount := 0 },
    mem := { status := .no_detection, confirmed_speed_limit := none,
             pending_detection := none, pending_count := 0, last_updated := 0 } }

/-- `StateManager._handle_no_detection`: reset the pending counter in the
manager and in the state, keep everything else; `SharedMemory.update_state`
then stamps `last_updated = now`.  The status field is left untouched. -/
def handle_no_detection (now : Nat) (s : MachineState) : MachineState :=
  { mgr := { pendingSpeedLimit := none, pendingTimeCondition := none, pendingCount := 0 },
    mem := { s.mem with pending_detection := none, pending_count := 0, last_updated := now } }

/-- Second half of `StateManager._handle_detection` (the code after the
confirmed-value check): pending-candidate bookkeeping and promotion at
`confirmation_frames`. -/
def handle_detection_pending (cfg now : Nat) (s : MachineState)
    (detection : SpeedLimitDetection) : MachineState :=
  if s.mgr.pendingSpeedLimit = some detection.speed_limit then
    if cfg ≤ s.mgr.pendingCount + 1 then
      { mgr := { pendingSpeedLimit := none, pendingTimeCondition := none, pendingCount := 0 },
        mem := { s.mem with
                 status := .confirmed,
                 confirmed_speed_limit := some
                   { speed_limit := detection.speed_limit,
                     time_condition := detection.time_condition,
                     confirmed_at := now, last_seen_at := now,
                     detection_count := s.mgr.pendingCount + 1 },
                 pending_detection := none, pending_count := 0, last_updated := now } }
    else
      { mgr := { s.mgr with pendingCount := s.mgr.pendingCount + 1 },
        mem := { s.mem with
                 status := .detecting,
                 pending_detection := some detection,
                 pending_count := s.mgr.pendingCount + 1, last_updated := now } }
  else
    { mgr := { pendingSpeedLimit := some detection.speed_limit,
               pendingTimeCondition := detection.time_condition, pendingCount := 1 },
      mem := { s.mem with
               status := .detecting,
               pending_detection := some detection,
               pending_count := 1, last_updated := now } }

/-- `StateManager._handle_detection`: the confirmed-value check comes first
(the reinforcement branch updates `last_seen_at`/`detection_count` and clears
the pending fields without assigning `status`); otherwise fall through to the
pending-candidate logic. -/
def handle_detection (cfg now : Nat) (s : MachineState)
    (detection : SpeedLimitDetection) : MachineState :=
  match s.mem.confirmed_speed_limit with
  | some c =>
    if c.speed_limit = detection.speed_limit then
      { mgr := { s.mgr with pendingSpeedLimit := none, pendingCount := 0 },
        mem := { s.mem with
                 confirmed_speed_limit := some
                   { c with last_seen_at := now, detection_count := c.detection_count + 1 },
                 pending_detection := none, pending_count := 0, last_updated := now } }
    else handle_detection_pending cfg now s detection
  | none => handle_detection_pending cfg now s detection

/-- `StateManager.update` with the frame's wall-clock instant injected:
dispatch on whether this frame carried a detection. -/
def update (cfg now : Nat) (s : MachineState)
    (detection : Option SpeedLimitDetection) : MachineState :=
  match detection with
  | none => handle_no_detection now s
  | some d => handle_detection cfg now s d

/-- Fold a list of `(now, observation)` frames through `update`, starting
from an arbitrary state. -/
def runFrom (cfg : Nat) (s : MachineState)
    (inputs : List (Nat × Option SpeedLimitDetection)) : MachineState :=
  inputs.foldl (fun t p => update cfg p.1 t p.2) s

/-- Fold a list of frames through `update` from the initial state; the
states this reaches are exactly the reachable states of the coordinator. -/
def runUpdates (cfg : Nat) (inputs : List (Nat × Option SpeedLimitDetection)) : MachineState :=
  runFrom cfg initialMachine inputs

/-- Helper invariant for claim C1: whenever the stored status is
`CONFIRMED`, a confirmed value is present. -/
def ConfirmedInv (s : MachineState) : Prop :=
  s.mem.status = DetectionStatus.confirmed → s.mem.confirmed_speed_limit ≠ none

/-- Object-identity model of `CurrentState` as held by `SharedMemory` in
`shared/memory.py`: the two nested dataclasses are mutable Python objects,
so the fields `confirmed_speed_limit` / `pending_detection` hold
references (heap addresses) rather than values. -/
structure CurrentStateObj where
  status : DetectionStatus
  confirmedRef : Option Nat
  pendingRef : Option Nat
  pending_count : Nat
  last_updated : Nat
deriving DecidableEq, Repr

/-- The store of `shared/memory.py` (`SharedMemory`): the `_state` object
plus the heaps holding the `ConfirmedSpeedLimit` and
`SpeedLimitDetection` objects that its reference fields point to. -/
structure SharedMemory where
  heapConfirmed : Nat → ConfirmedSpeedLimit
  heapPending : Nat → SpeedLimitDetection
  state : CurrentStateObj

/-- `SharedMemory.get_state`: `dataclasses.replace(self._state, ...)` builds
a fresh `CurrentState` object carrying the same field values — a shallow
copy, so the nested references still point into the store's heap. -/
def SharedMemory.get_state (m : SharedMemory) : CurrentStateObj :=
  m.state

/-- A caller mutating the nested confirmed dataclass through a reference
(Python `obj.field = value` on the object at address `r`): the heap cell
is updated in place, for every holder of the reference. -/
def SharedMemory.mutateConfirmedObj (m : SharedMemory) (r : Nat)
    (v : ConfirmedSpeedLimit) : SharedMemory :=
  { m with heapConfirmed := fun a => if a = r then v else m.heapConfirmed a }

/-- Dereference a snapshot's confirmed field against the store's heap. -/
def SharedMemory.derefConfirmed (m : SharedMemory) (snap : CurrentStateObj) :
    Option ConfirmedSpeedLimit :=
  snap.confirmedRef.map m.heapConfirmed

/-- Numeric value of an ASCII digit character (`int` applied to a matched
digit group). -/
def digitVal (c : Char) : Nat :=
  c.toNat - 48

/-- Regex piece `(\d{2})` as used for a two-digit hour alternative of
`(\d{1,2})`: consume exactly two digits, greedily. -/
def twoDigits : List Char → Option (Nat × List Char)
  | c1 :: c2 :: rest =>
    if c1.isDigit ∧ c2.isDigit then some (10 * digitVal c1 + digitVal c2, rest) else none
  | _ => none

/-- Regex piece `(\d{1})`: consume exactly one digit. -/
def oneDigit : List Char → Option (Nat × List Char)
  | c :: rest => if c.isDigit then some (digitVal c, rest) else none
  | [] => none

/-- Regex piece `:(\d{2})`: a literal colon followed by exactly two
digits. -/
def colonMinutes : List Char → Option (Nat × List Char)
  | c0 :: c1 :: c2 :: rest =>
    if c0 = ':' ∧ c1.isDigit ∧ c2.isDigit then some (10 * digitVal c1 + digitVal c2, rest)
    else none
  | _ => none

/-- Regex piece `-`: the literal dash. -/
def dashLit : List Char → Option (List Char)
  | c :: rest => if c = '-' then some rest else none
  | [] => none

/-- Backtracking for the greedy `(\d{1,2})` group: try two digits first and
fall back to one digit when the rest of the pattern fails (Option's
`<|>` yields exactly the regex engine's backtracking order). -/
def hourThen (k : Nat → List Char → Option α) (s : List Char) : Option α :=
  (match twoDigits s with
   | some (n, r) => k n r
   | none => none) <|>
  (match oneDigit s with
   | some (n, r) => k n r
   | none => none)

/-- Backtracking for the greedy optional group `(?::(\d{2}))?`: try to match
the colon-minutes, fall back to skipping the group; a skipped minutes
group yields 0 (`int(match.group(i)) if match.group(i) else 0`). -/
def optMinutesThen (k : Nat → List Char → Option α) (s : List Char) : Option α :=
  (match colonMinutes s with
   | some (n, r) => k n r
   | none => none) <|> k 0 s

/-- The full pattern `(\d{1,2})(?::(\d{2}))?-(\d{1,2})(?::(\d{2}))?` with a
caller-chosen continuation `k` receiving the four groups and the
remaining suffix. -/
def patternThen (k : Nat → Nat → Nat → Nat → List Char → Option α)
    (s : List Char) : Option α :=
  hourThen (fun sh s1 =>
    optMinutesThen (fun sm s2 =>
      match dashLit s2 with
      | some s3 =>
        hourThen (fun eh s4 =>
          optMinutesThen (fun em s5 => k sh sm eh em s5) s4) s3
      | none => none) s1) s

/-- Python `re.match` of the pattern: anchored at the start only; the
remaining suffix is ignored. -/
def tcPrefixMatch (s : List Char) : Option (Nat × Nat × Nat × Nat) :=
  patternThen (fun sh sm eh em _ => some (sh, sm, eh, em)) s

/-- Modelled from the spec: a whole-string match of `H(:MM)?-H(:MM)?`
(spec wording "strings matching `H(:MM)?-H(:MM)?`") — the same pattern
with the end anchored as well, used to compare the source's prefix-match
behaviour against the spec's reading. -/
def tcWholeMatch (s : List Char) : Option (Nat × Nat × Nat × Nat) :=
  patternThen (fun sh sm eh em rest => if rest = [] then some (sh, sm, eh, em) else none) s

/-- The six ASCII whitespace characters removed by Python `str.strip`. -/
def pySpace (c : Char) : Bool :=
  c = ' ' || c = '\t' || c = '\n' || c = '\r' || c = '\x0b' || c = '\x0c'

/-- Python `str.strip()` on an ASCII string: drop whitespace from both
ends. -/
def pyStrip (s : List Char) : List Char :=
  ((s.dropWhile pySpace).reverse.dropWhile pySpace).reverse

/-- `TimeCondition.from_string` from `shared/state.py`: strip, `re.match`
the pattern, default absent minute groups to 0, validate hour and minute
ranges, and build the condition (note the keyword argument order:
`start_hour, end_hour, start_minute, end_minute`). -/
def TimeCondition.from_string (time_str : List Char) : Option TimeCondition :=
  match tcPrefixMatch (pyStrip time_str) with
  | none => none
  | some (sh, sm, eh, em) =>
    if sh ≤ 23 ∧ eh ≤ 23 then
      if sm ≤ 59 ∧ em ≤ 59 then
        some { start_hour := sh, end_hour := eh, start_minute := sm, end_minute := em }
      else none
    else none

/-- The ASCII digit character for `d < 10`. -/
def digitChar (d : Nat) : Char :=
  Char.ofNat (48 + d)

/-- Python `f"{n:02d}"` for `n < 100`: two digits, zero padded. -/
def pad2 (n : Nat) : List Char :=
  [digitChar (n / 10), digitChar (n % 10)]

/-- Python `f"{n}"` for `n < 100`: plain decimal, one or two digits (the
hours printed by `__str__` are below 100 on every valid condition). -/
def decimal2 (n : Nat) : List Char :=
  if n < 10 then [digitChar n] else pad2 n

/-- `TimeCondition.__str__` from `shared/state.py`: `"H-H"` when both
minutes are zero, else `"HH:MM-HH:MM"`. -/
def TimeCondition.toCanonicalString (tc : TimeCondition) : List Char :=
  if tc.start_minute = 0 ∧ tc.end_minute = 0 then
    decimal2 tc.start_hour ++ '-' :: decimal2 tc.end_hour
  else
    pad2 tc.start_hour ++ ':' :: pad2 tc.start_minute ++ '-' ::
      pad2 tc.end_hour ++ ':' :: pad2 tc.end_minute

theorem sanity_is_active_overnight :
    TimeCondition.is_active ⟨22, 6, 0, 0⟩ (timeOfDay 23 0) = true := by decide

theorem sanity_three_forties :
    (runUpdates 3 [(1, some ⟨40, none⟩), (2, some ⟨40, none⟩), (3, some ⟨40, none⟩)]).mem =
      { status := .confirmed,
        confirmed_speed_limit := some ⟨40, none, 3, 3, 3⟩,
        pending_detection := none, pending_count := 0, last_updated := 3 } := by decide

lemma confirmedInv_initial : ConfirmedInv initialMachine := by
  intro h
  simp [initialMachine] at h

lemma confirmedInv_update (cfg now : Nat) (s : MachineState)
    (detection : Option SpeedLimitDetection) (hs : ConfirmedInv s) :
    ConfirmedInv (update cfg now s detection) := by
  obtain ⟨⟨psl, ptc, pcnt⟩, st, conf, pd, pcount, lu⟩ := s
  unfold ConfirmedInv at hs ⊢
  cases detection with
  | none => simpa [update, handle_no_detection] using hs
  | some d =>
    cases conf with
    | none =>
      simp only [update, handle_detection, handle_detection_pending]
      split
      · split
        · simp
        · simp
      · simp
    | some c =>
      simp only [update, handle_detection]
      split
      · simp
      · simp only [handle_detection_pending]
        split
        · split
          · simp
          · simp
        · simp

lemma confirmedInv_runFrom (cfg : Nat) (inputs : List (Nat × Option SpeedLimitDetection)) :
    ∀ s : MachineState, ConfirmedInv s → ConfirmedInv (runFrom cfg s inputs) := by
  induction inputs with
  | nil => intro s hs; exact hs
  | cons p rest ih =>
    intro s hs
    exact ih _ (confirmedInv_update cfg p.1 s p.2 hs)

/-- C1 (amended): after every sequence of `update` calls, if the status is
`CONFIRMED` then a confirmed value is present.  (The claimed converse is
refuted by `claim1_confirmedIff_cex`.) -/
theorem claim1_statusConfirmed_implies_present (cfg : Nat)
    (inputs : List (Nat × Option SpeedLimitDetection))
    (h : (runUpdates cfg inputs).mem.status = DetectionStatus.confirmed) :
    (runUpdates cfg inputs).mem.confirmed_speed_limit ≠ none :=
  confirmedInv_runFrom cfg inputs initialMachine confirmedInv_initial h

/-- Witness for C1's amended theorem at the trace that confirms 40 after
three consecutive detections. -/
theorem claim1_statusConfirmed_implies_present_witness :
    (runUpdates 3 [(1, some ⟨40, none⟩), (2, some ⟨40, none⟩),
      (3, some ⟨40, none⟩)]).mem.status = DetectionStatus.confirmed ∧
    (runUpdates 3 [(1, some ⟨40, none⟩), (2, some ⟨40, none⟩),
      (3, some ⟨40, none⟩)]).mem.confirmed_speed_limit ≠ none :=
  ⟨by decide,
   claim1_statusConfirmed_implies_present 3
     [(1, some ⟨40, none⟩), (2, some ⟨40, none⟩), (3, some ⟨40, none⟩)] (by decide)⟩

/-- C1 counterexample: after confirming 40 and then observing 60 once, a
confirmed value is present but the status is `DETECTING`, so the claimed
equivalence `status = CONFIRMED ⇔ confirmed present` is false, and so is
"confirmed present ⇒ status = CONFIRMED". -/
theorem claim1_confirmedIff_cex :
    (runUpdates 3 [(1, some ⟨40, none⟩), (2, some ⟨40, none⟩), (3, some ⟨40, none⟩),
      (4, some ⟨60, none⟩)]).mem.confirmed_speed_limit = some ⟨40, none, 3, 3, 3⟩ ∧
    (runUpdates 3 [(1, some ⟨40, none⟩), (2, some ⟨40, none⟩), (3, some ⟨40, none⟩),
      (4, some ⟨60, none⟩)]).mem.status = DetectionStatus.detecting := by
  constructor
  · decide
  · decide

/-- C2: code bug.  From the initial state, one frame that detects 40
followed by one frame with no detection leaves the status `DETECTING`
even though nothing was ever confirmed and the pending candidate was
cleared; the claim (and the comment inside `_handle_no_detection`
itself) says the status must then be `NO_DETECTION`. -/
theorem claim2_noDetection_keeps_detecting_bug :
    (runUpdates 3 [(1, some ⟨40, none⟩), (2, none)]).mem =
      { status := DetectionStatus.detecting, confirmed_speed_limit := none,
        pending_detection := none, pending_count := 0, last_updated := 2 } := by
  decide

/-- C4 (amended): on a state with a confirmed value, an observation that
carries the confirmed value takes the reinforcement branch (which has
priority over the pending check): `last_seen_at` advances, the
reinforcement count increments, `confirmed_at` is untouched, the pending
candidate is cleared, and the status is left exactly as it was (the
claimed "status stays CONFIRMED" holds only when it already was
`CONFIRMED`; see `claim4_reinforce_keeps_detecting_cex`). -/
theorem claim4_reinforcement_spec (cfg now : Nat) (s : MachineState)
    (c : ConfirmedSpeedLimit) (d : SpeedLimitDetection)
    (hc : s.mem.confirmed_speed_limit = some c)
    (hv : c.speed_limit = d.speed_limit) :
    update cfg now s (some d) =
      { mgr := { pendingSpeedLimit := none,
                 pendingTimeCondition := s.mgr.pendingTimeCondition, pendingCount := 0 },
        mem := { status := s.mem.status,
                 confirmed_speed_limit := some
                   { c with last_seen_at := now, detection_count := c.detection_count + 1 },
                 pending_detection := none, pending_count := 0, last_updated := now } } := by
  obtain ⟨⟨psl, ptc, pcnt⟩, st, conf, pd, pcount, lu⟩ := s
  simp only at hc
  subst hc
  simp [update, handle_detection, hv]

/-- Witness for C4's amended theorem: reinforcing a freshly confirmed 40
at instant 9. -/
theorem claim4_reinforcement_spec_witness :
    update 3 9
        { mgr := { pendingSpeedLimit := none, pendingTimeCondition := none, pendingCount := 0 },
          mem := { status := DetectionStatus.confirmed,
                   confirmed_speed_limit := some ⟨40, none, 3, 3, 3⟩,
                   pending_detection := none, pending_count := 0, last_updated := 3 } }
        (some ⟨40, none⟩) =
      { mgr := { pendingSpeedLimit := none, pendingTimeCondition := none, pendingCount := 0 },
        mem := { status := DetectionStatus.confirmed,
                 confirmed_speed_limit := some ⟨40, none, 3, 9, 4⟩,
                 pending_detection := none, pending_count := 0, last_updated := 9 } } :=
  claim4_reinforcement_spec 3 9 _ ⟨40, none, 3, 3, 3⟩ ⟨40, none⟩ rfl rfl

/-- C4 counterexample: reach the state "40 confirmed, 60 pending, status
DETECTING" and re-observe the confirmed 40.  The reinforcement branch
runs (count 3 → 4, pending cleared) but the status stays `DETECTING`,
refuting the claimed "keeps status CONFIRMED". -/
theorem claim4_reinforce_keeps_detecting_cex :
    (runUpdates 3 [(1, some ⟨40, none⟩), (2, some ⟨40, none⟩), (3, some ⟨40, none⟩),
      (4, some ⟨60, none⟩), (5, some ⟨40, none⟩)]).mem =
      { status := DetectionStatus.detecting,
        confirmed_speed_limit := some ⟨40, none, 3, 5, 4⟩,
        pending_detection := none, pending_count := 0, last_updated := 5 } := by
  decide

/-- C10: pending candidates are matched by integer value only.  On a state
whose pending value is `d.speed_limit` (its recorded pending time
condition is arbitrary and may differ from `d`'s) and whose confirmed
value, if any, differs from `d.speed_limit`, the observation counts
toward confirmation; if the incremented count reaches the threshold, the
`ConfirmedSpeedLimit` that is created carries `d`'s time condition — the
one of the final, confirming observation — not the pending one. -/
theorem claim10_match_by_value_final_tc (cfg now : Nat) (s : MachineState)
    (d : SpeedLimitDetection)
    (hconf : ∀ c, s.mem.confirmed_speed_limit = some c → c.speed_limit ≠ d.speed_limit)
    (hpend : s.mgr.pendingSpeedLimit = some d.speed_limit) :
    (if cfg ≤ s.mgr.pendingCount + 1 then
      (update cfg now s (some d)).mem.status = DetectionStatus.confirmed ∧
      (update cfg now s (some d)).mem.confirmed_speed_limit =
        some ⟨d.speed_limit, d.time_condition, now, now, s.mgr.pendingCount + 1⟩ ∧
      (update cfg now s (some d)).mem.pending_detection = none
    else
      (update cfg now s (some d)).mem.status = DetectionStatus.detecting ∧
      (update cfg now s (some d)).mem.pending_count = s.mgr.pendingCount + 1 ∧
      (update cfg now s (some d)).mem.confirmed_speed_limit = s.mem.confirmed_speed_limit) := by
  obtain ⟨⟨psl, ptc, pcnt⟩, st, conf, pd, pcount, lu⟩ := s
  simp only at hconf hpend ⊢
  subst hpend
  cases conf with
  | none =>
    simp only [update, handle_detection, handle_detection_pending]
    split
    · simp_all
    · simp_all
  | some c =>
    have hne : ¬ c.speed_limit = d.speed_limit := hconf c rfl
    simp only [update, handle_detection, handle_detection_pending, if_neg hne]
    split
    · simp_all
    · simp_all

/-- Witness for C10: pending 40 recorded with window 7–19, confirming
observation carries window 8–20; the confirmed value gets 8–20. -/
theorem claim10_match_by_value_final_tc_witness :
    (3 ≤ 2 + 1) ∧
    ((update 3 7
        { mgr := { pendingSpeedLimit := some 40,
                   pendingTimeCondition := some ⟨7, 19, 0, 0⟩, pendingCount := 2 },
          mem := { status := DetectionStatus.detecting, confirmed_speed_limit := none,
                   pending_detection := some ⟨40, some ⟨7, 19, 0, 0⟩⟩,
                   pending_count := 2, last_updated := 6 } }
        (some ⟨40, some ⟨8, 20, 0, 0⟩⟩)).mem.status = DetectionStatus.confirmed ∧
     (update 3 7
        { mgr := { pendingSpeedLimit := some 40,
                   pendingTimeCondition := some ⟨7, 19, 0, 0⟩, pendingCount := 2 },
          mem := { status := DetectionStatus.detecting, confirmed_speed_limit := none,
                   pending_detection := some ⟨40, some ⟨7, 19, 0, 0⟩⟩,
                   pending_count := 2, last_updated := 6 } }
        (some ⟨40, some ⟨8, 20, 0, 0⟩⟩)).mem.confirmed_speed_limit =
       some ⟨40, some ⟨8, 20, 0, 0⟩, 7, 7, 3⟩ ∧
     (update 3 7
        { mgr := { pendingSpeedLimit := some 40,
                   pendingTimeCondition := some ⟨7, 19, 0, 0⟩, pendingCount := 2 },
          mem := { status := DetectionStatus.detecting, confirmed_speed_limit := none,
                   pending_detection := some ⟨40, some ⟨7, 19, 0, 0⟩⟩,
                   pending_count := 2, last_updated := 6 } }
        (some ⟨40, some ⟨8, 20, 0, 0⟩⟩)).mem.pending_detection = none) := by
  constructor
  · decide
  · have h := claim10_match_by_value_final_tc 3 7
      { mgr := { pendingSpeedLimit := some 40,
                 pendingTimeCondition := some ⟨7, 19, 0, 0⟩, pendingCount := 2 },
        mem := { status := DetectionStatus.detecting, confirmed_speed_limit := none,
                 pending_detection := some ⟨40, some ⟨7, 19, 0, 0⟩⟩,
                 pending_count := 2, last_updated := 6 } }
      ⟨40, some ⟨8, 20, 0, 0⟩⟩ (fun c hc => Option.noConfusion hc) rfl
    rw [if_pos (by decide)] at h
    exact h

/-- Helper: one `update` step on a state whose confirmed value (if any)
differs from the observation and whose pending value matches it, while
the incremented count stays below the threshold. -/
lemma pending_step (cfg now : Nat) (t : MachineState) (d : SpeedLimitDetection)
    (hconf : ∀ c, t.mem.confirmed_speed_limit = some c → c.speed_limit ≠ d.speed_limit)
    (hpend : t.mgr.pendingSpeedLimit = some d.speed_limit)
    (hth : ¬ cfg ≤ t.mgr.pendingCount + 1) :
    update cfg now t (some d) =
      { mgr := { t.mgr with pendingCount := t.mgr.pendingCount + 1 },
        mem := { t.mem with
                 status := DetectionStatus.detecting,
                 pending_detection := some d,
                 pending_count := t.mgr.pendingCount + 1, last_updated := now } } := by
  obtain ⟨⟨psl, ptc, pcnt⟩, st, conf, pd, pcount, lu⟩ := t
  simp only at hconf hpend hth ⊢
  subst hpend
  cases conf with
  | none => simp [update, handle_detection, handle_detection_pending, hth]
  | some c =>
    have hne : ¬ c.speed_limit = d.speed_limit := hconf c rfl
    simp [update, handle_detection, handle_detection_pending, hne, hth]

/-- Helper: the promotion step — same situation as `pending_step` but with
the incremented count reaching the threshold. -/
lemma promote_step (cfg now : Nat) (t : MachineState) (d : SpeedLimitDetection)
    (hconf : ∀ c, t.mem.confirmed_speed_limit = some c → c.speed_limit ≠ d.speed_limit)
    (hpend : t.mgr.pendingSpeedLimit = some d.speed_limit)
    (hth : cfg ≤ t.mgr.pendingCount + 1) :
    update cfg now t (some d) =
      { mgr := { pendingSpeedLimit := none, pendingTimeCondition := none, pendingCount := 0 },
        mem := { t.mem with
                 status := DetectionStatus.confirmed,
                 confirmed_speed_limit := some
                   ⟨d.speed_limit, d.time_condition, now, now, t.mgr.pendingCount + 1⟩,
                 pending_detection := none, pending_count := 0, last_updated := now } } := by
  obtain ⟨⟨psl, ptc, pcnt⟩, st, conf, pd, pcount, lu⟩ := t
  simp only at hconf hpend hth ⊢
  subst hpend
  cases conf with
  | none => simp [update, handle_detection, handle_detection_pending, hth]
  | some c =>
    have hne : ¬ c.speed_limit = d.speed_limit := hconf c rfl
    simp [update, handle_detection, handle_detection_pending, hne, hth]

/-- Helper: one `update` step on a state whose confirmed value (if any)
and pending value both differ from the observation: a fresh pending
candidate with count 1 is started. -/
lemma new_pending_step (cfg now : Nat) (t : MachineState) (d : SpeedLimitDetection)
    (hconf : ∀ c, t.mem.confirmed_speed_limit = some c → c.speed_limit ≠ d.speed_limit)
    (hpend : t.mgr.pendingSpeedLimit ≠ some d.speed_limit) :
    update cfg now t (some d) =
      { mgr := { pendingSpeedLimit := some d.speed_limit,
                 pendingTimeCondition := d.time_condition, pendingCount := 1 },
        mem := { t.mem with
                 status := DetectionStatus.detecting,
                 pending_detection := some d,
                 pending_count := 1, last_updated := now } } := by
  obtain ⟨⟨psl, ptc, pcnt⟩, st, conf, pd, pcount, lu⟩ := t
  simp only at hconf hpend ⊢
  cases conf with
  | none => simp [update, handle_detection, handle_detection_pending, hpend]
  | some c =>
    have hne : ¬ c.speed_limit = d.speed_limit := hconf c rfl
    simp [update, handle_detection, handle_detection_pending, hne, hpend]

/-- Helper: folding `k` further matching observations while the count stays
below the threshold keeps the machine in the detecting phase and adds `k`
to the pending count, leaving the confirmed value untouched. -/
lemma run_pending_phase (cfg now : Nat) (d : SpeedLimitDetection) :
    ∀ (k : Nat) (s : MachineState),
    s.mgr.pendingSpeedLimit = some d.speed_limit →
    (∀ c, s.mem.confirmed_speed_limit = some c → c.speed_limit ≠ d.speed_limit) →
    s.mgr.pendingCount + k < cfg →
    (runFrom cfg s (List.replicate k (now, some d))).mgr.pendingSpeedLimit
        = some d.speed_limit ∧
    (runFrom cfg s (List.replicate k (now, some d))).mgr.pendingCount
        = s.mgr.pendingCount + k ∧
    (runFrom cfg s (List.replicate k (now, some d))).mem.confirmed_speed_limit
        = s.mem.confirmed_speed_limit ∧
    (k = 0 → runFrom cfg s (List.replicate k (now, some d)) = s) ∧
    (0 < k →
      (runFrom cfg s (List.replicate k (now, some d))).mem.status
          = DetectionStatus.detecting ∧
      (runFrom cfg s (List.replicate k (now, some d))).mem.pending_detection = some d ∧
      (runFrom cfg s (List.replicate k (now, some d))).mem.pending_count
          = s.mgr.pendingCount + k) := by
  intro k
  induction k with
  | zero =>
    intro s hpend hconf hlt
    refine ⟨hpend, rfl, rfl, fun _ => rfl, fun h => absurd h (by omega)⟩
  | succ k ih =>
    intro s hpend hconf hlt
    have hth : ¬ cfg ≤ s.mgr.pendingCount + 1 := by omega
    have hstep := pending_step cfg now s d hconf hpend hth
    have hcons : List.replicate (k + 1) ((now, some d) : Nat × Option SpeedLimitDetection)
        = (now, some d) :: List.replicate k (now, some d) := List.replicate_succ _ _
    rw [hcons]
    have hrun : runFrom cfg s ((now, some d) :: List.replicate k (now, some d))
        = runFrom cfg (update cfg now s (some d)) (List.replicate k (now, some d)) := rfl
    rw [hrun, hstep]
    have ih' := ih
      { mgr := { s.mgr with pendingCount := s.mgr.pendingCount + 1 },
        mem := { s.mem with
                 status := DetectionStatus.detecting,
                 pending_detection := some d,
                 pending_count := s.mgr.pendingCount + 1, last_updated := now } }
      hpend (fun c hc => hconf c hc) (by simp; omega)
    obtain ⟨h1, h2, h3, h4, h5⟩ := ih'
    refine ⟨h1, by simpa using by rw [h2]; simp; omega, h3, fun h => absurd h (by omega), ?_⟩
    intro _
    cases Nat.eq_zero_or_pos k with
    | inl hk0 =>
      subst hk0
      rw [h4 rfl]
      exact ⟨rfl, rfl, by simp⟩
    | inr hkpos =>
      obtain ⟨g1, g2, g3⟩ := h5 hkpos
      exact ⟨g1, g2, by rw [g3]; simp; omega⟩

/-- C3 (amended, for thresholds of at least 2 — the default is 3; see
`claim3_threshold_one_cex` for why a threshold of 1 is excluded): from a
state with no pending candidate whose confirmed value (if any) differs
from `d.speed_limit`, after `confirmation_frames - 1` consecutive frames
observing `d` the status is `DETECTING` with `d` pending at count
`confirmation_frames - 1` and the confirmed value untouched; the next
such frame creates a fresh `ConfirmedSpeedLimit` with
`confirmed_at = last_seen_at = now2` and `detection_count =
confirmation_frames`, discards the pending candidate, sets the status to
`CONFIRMED`, and replaces any previously confirmed value outright. -/
theorem claim3_confirmation_threshold (cfg now now2 : Nat) (s : MachineState)
    (d : SpeedLimitDetection)
    (hcfg : 2 ≤ cfg)
    (hpend : s.mgr.pendingSpeedLimit = none)
    (hconf : ∀ c, s.mem.confirmed_speed_limit = some c → c.speed_limit ≠ d.speed_limit) :
    (runFrom cfg s (List.replicate (cfg - 1) (now, some d))).mem.status
        = DetectionStatus.detecting ∧
    (runFrom cfg s (List.replicate (cfg - 1) (now, some d))).mem.pending_detection = some d ∧
    (runFrom cfg s (List.replicate (cfg - 1) (now, some d))).mem.pending_count = cfg - 1 ∧
    (runFrom cfg s (List.replicate (cfg - 1) (now, some d))).mem.confirmed_speed_limit
        = s.mem.confirmed_speed_limit ∧
    (update cfg now2 (runFrom cfg s (List.replicate (cfg - 1) (now, some d))) (some d)).mem
        = { status := DetectionStatus.confirmed,
            confirmed_speed_limit := some
              ⟨d.speed_limit, d.time_condition, now2, now2, cfg⟩,
            pending_detection := none, pending_count := 0, last_updated := now2 } ∧
    (update cfg now2 (runFrom cfg s (List.replicate (cfg - 1) (now, some d))) (some d)).mgr
        = { pendingSpeedLimit := none, pendingTimeCondition := none, pendingCount := 0 } := by
  obtain ⟨m, rfl⟩ : ∃ m, cfg = m + 2 := ⟨cfg - 2, by omega⟩
  have h1 : m + 2 - 1 = m + 1 := by omega
  rw [h1]
  have hcons : List.replicate (m + 1) ((now, some d) : Nat × Option SpeedLimitDetection)
      = (now, some d) :: List.replicate m (now, some d) := List.replicate_succ _ _
  rw [hcons]
  have hne : s.mgr.pendingSpeedLimit ≠ some d.speed_limit := by rw [hpend]; simp
  have hstep := new_pending_step (m + 2) now s d hconf hne
  have hrun : runFrom (m + 2) s ((now, some d) :: List.replicate m (now, some d))
      = runFrom (m + 2) (update (m + 2) now s (some d)) (List.replicate m (now, some d)) := rfl
  rw [hrun, hstep]
  have hphase := run_pending_phase (m + 2) now d m
    { mgr := { pendingSpeedLimit := some d.speed_limit,
               pendingTimeCondition := d.time_condition, pendingCount := 1 },
      mem := { s.mem with
               status := DetectionStatus.detecting,
               pending_detection := some d,
               pending_count := 1, last_updated := now } }
    rfl (fun c hc => hconf c hc) (by simp; omega)
  obtain ⟨p1, p2, p3, p4, p5⟩ := hphase
  have hstat : (runFrom (m + 2)
      { mgr := { pendingSpeedLimit := some d.speed_limit,
                 pendingTimeCondition := d.time_condition, pendingCount := 1 },
        mem := { s.mem with
                 status := DetectionStatus.detecting,
                 pending_detection := some d,
                 pending_count := 1, last_updated := now } }
      (List.replicate m (now, some d))).mem.status = DetectionStatus.detecting ∧
      (runFrom (m + 2)
      { mgr := { pendingSpeedLimit := some d.speed_limit,
                 pendingTimeCondition := d.time_condition, pendingCount := 1 },
        mem := { s.mem with
                 status := DetectionStatus.detecting,
                 pending_detection := some d,
                 pending_count := 1, last_updated := now } }
      (List.replicate m (now, some d))).mem.pending_detection = some d ∧
      (runFrom (m + 2)
      { mgr := { pendingSpeedLimit := some d.speed_limit,
                 pendingTimeCondition := d.time_condition, pendingCount := 1 },
        mem := { s.mem with
                 status := DetectionStatus.detecting,
                 pending_detection := some d,
                 pending_count := 1, last_updated := now } }
      (List.replicate m (now, some d))).mem.pending_count = m + 1 := by
    cases Nat.eq_zero_or_pos m with
    | inl hm0 =>
      subst hm0
      rw [p4 rfl]
      exact ⟨rfl, rfl, rfl⟩
    | inr hmpos =>
      obtain ⟨g1, g2, g3⟩ := p5 hmpos
      exact ⟨g1, g2, by rw [g3]; simp; omega⟩
  obtain ⟨q1, q2, q3⟩ := hstat
  have hconf2 : (runFrom (m + 2)
      { mgr := { pendingSpeedLimit := some d.speed_limit,
                 pendingTimeCondition := d.time_condition, pendingCount := 1 },
        mem := { s.mem with
                 status := DetectionStatus.detecting,
                 pending_detection := some d,
                 pending_count := 1, last_updated := now } }
      (List.replicate m (now, some d))).mem.confirmed_speed_limit
      = s.mem.confirmed_speed_limit := by rw [p3]
  have hcnt : (runFrom (m + 2)
      { mgr := { pendingSpeedLimit := some d.speed_limit,
                 pendingTimeCondition := d.time_condition, pendingCount := 1 },
        mem := { s.mem with
                 status := DetectionStatus.detecting,
                 pending_detection := some d,
                 pending_count := 1, last_updated := now } }
      (List.replicate m (now, some d))).mgr.pendingCount = m + 1 := by
    rw [p2]; simp; omega
  refine ⟨q1, q2, by rw [q3], hconf2, ?_, ?_⟩
  · have hpromote := promote_step (m + 2) now2 _ d
      (fun c hc => hconf c (by rw [hconf2] at hc; exact hc)) p1 (by rw [hcnt])
    rw [hpromote]
    rw [hcnt]
  · have hpromote := promote_step (m + 2) now2 _ d
      (fun c hc => hconf c (by rw [hconf2] at hc; exact hc)) p1 (by rw [hcnt])
    rw [hpromote]

/-- Witness for C3's amended theorem at the default threshold 3, from the
initial state, observing 40 at instants 1,1 and then 2. -/
theorem claim3_confirmation_threshold_witness :
    (2 ≤ 3) ∧
    ((runFrom 3 initialMachine (List.replicate 2 (1, some ⟨40, none⟩))).mem.status
        = DetectionStatus.detecting ∧
     (runFrom 3 initialMachine (List.replicate 2 (1, some ⟨40, none⟩))).mem.pending_detection
        = some ⟨40, none⟩ ∧
     (runFrom 3 initialMachine (List.replicate 2 (1, some ⟨40, none⟩))).mem.pending_count
        = 3 - 1 ∧
     (runFrom 3 initialMachine (List.replicate 2 (1, some ⟨40, none⟩))).mem.confirmed_speed_limit
        = initialMachine.mem.confirmed_speed_limit ∧
     (update 3 2 (runFrom 3 initialMachine (List.replicate 2 (1, some ⟨40, none⟩)))
        (some ⟨40, none⟩)).mem
        = { status := DetectionStatus.confirmed,
            confirmed_speed_limit := some ⟨40, none, 2, 2, 3⟩,
            pending_detection := none, pending_count := 0, last_updated := 2 } ∧
     (update 3 2 (runFrom 3 initialMachine (List.replicate 2 (1, some ⟨40, none⟩)))
        (some ⟨40, none⟩)).mgr
        = { pendingSpeedLimit := none, pendingTimeCondition := none, pendingCount := 0 }) :=
  ⟨by decide,
   by
    have h := claim3_confirmation_threshold 3 1 2 initialMachine ⟨40, none⟩
      (by decide) rfl (fun c hc => Option.noConfusion hc)
    exact h⟩

/-- C3 counterexample: with `confirmation_frames = 1` the claim fails — the
first observation of a fresh value only starts a pending candidate
(status `DETECTING`, nothing confirmed), because the promotion check sits
only in the matching-pending branch; a second consecutive observation is
what confirms.  So "exactly confirmationThreshold consecutive updates"
does not hold at threshold 1. -/
theorem claim3_threshold_one_cex :
    (runUpdates 1 [(1, some ⟨40, none⟩)]).mem.status = DetectionStatus.detecting ∧
    (runUpdates 1 [(1, some ⟨40, none⟩)]).mem.confirmed_speed_limit = none ∧
    (runUpdates 1 [(1, some ⟨40, none⟩), (2, some ⟨40, none⟩)]).mem.status
        = DetectionStatus.confirmed := by
  refine ⟨by decide, by decide, by decide⟩

/-- C6: `get_effective_speed_limit` returns the confirmed integer exactly
when a confirmed value exists and its time condition is absent or active
at the query instant; and it is entirely independent of the status,
pending candidate and `last_updated` fields. -/
theorem claim6_effective_value_spec (st : CurrentState) (now : Nat) :
    (∀ v, st.get_effective_speed_limit now = some v ↔
      ∃ c, st.confirmed_speed_limit = some c ∧ c.speed_limit = v ∧
        (c.time_condition = none ∨
         ∃ tc, c.time_condition = some tc ∧ tc.is_active now = true)) ∧
    (∀ (p : Option SpeedLimitDetection) (pc : Nat) (ps : DetectionStatus) (lu : Nat),
      CurrentState.get_effective_speed_limit
        { status := ps, confirmed_speed_limit := st.confirmed_speed_limit,
          pending_detection := p, pending_count := pc, last_updated := lu } now
        = st.get_effective_speed_limit now) := by
  constructor
  · intro v
    cases hc : st.confirmed_speed_limit with
    | none => simp [CurrentState.get_effective_speed_limit, hc]
    | some c =>
      cases htc : c.time_condition with
      | none =>
        simp [CurrentState.get_effective_speed_limit, hc,
          ConfirmedSpeedLimit.is_currently_active, htc]
      | some tc =>
        cases hact : tc.is_active now with
        | false =>
          simp [CurrentState.get_effective_speed_limit, hc,
            ConfirmedSpeedLimit.is_currently_active, htc, hact]
        | true =>
          simp [CurrentState.get_effective_speed_limit, hc,
            ConfirmedSpeedLimit.is_currently_active, htc, hact]
  · intro p pc ps lu
    simp [CurrentState.get_effective_speed_limit]

/-- C7: `TimeCondition.is_active` is inclusive containment
`start ≤ now ≤ end` for non-wrapping windows and the disjunction
`now ≥ start OR now ≤ end` for wrapping windows (`start > end`); the
overnight window 22:00–06:00 is active at 23:00 and 01:00 and inactive
at 12:00. -/
theorem claim7_is_active_spec :
    (∀ (tc : TimeCondition) (now : Nat),
      tc.is_active now = true ↔
        (if tc.startInstant ≤ tc.endInstant
         then tc.startInstant ≤ now ∧ now ≤ tc.endInstant
         else now ≥ tc.startInstant ∨ now ≤ tc.endInstant)) ∧
    TimeCondition.is_active ⟨22, 6, 0, 0⟩ (timeOfDay 23 0) = true ∧
    TimeCondition.is_active ⟨22, 6, 0, 0⟩ (timeOfDay 1 0) = true ∧
    TimeCondition.is_active ⟨22, 6, 0, 0⟩ (timeOfDay 12 0) = false := by
  refine ⟨?_, by decide, by decide, by decide⟩
  intro tc now
  unfold TimeCondition.is_active
  split
  · simp
  · simp

/-- C5: code bug.  `get_state` returns only a shallow copy: with a store
holding confirmed value 40 at heap address 0, a reader that mutates the
nested confirmed object of the returned snapshot (setting its
`speed_limit` to 99) changes what every subsequent `get_state` read
dereferences to — the store's internally held state is not independent
of the returned snapshot, contradicting the claim (and the source's own
"prevent external modifications" comment). -/
theorem claim5_shallow_copy_leak :
    (SharedMemory.derefConfirmed
        { heapConfirmed := fun _ => ⟨40, none, 5, 5, 3⟩,
          heapPending := fun _ => ⟨40, none⟩,
          state := { status := DetectionStatus.confirmed, confirmedRef := some 0,
                     pendingRef := none, pending_count := 0, last_updated := 5 } }
        (SharedMemory.get_state
          { heapConfirmed := fun _ => ⟨40, none, 5, 5, 3⟩,
            heapPending := fun _ => ⟨40, none⟩,
            state := { status := DetectionStatus.confirmed, confirmedRef := some 0,
                       pendingRef := none, pending_count := 0, last_updated := 5 } })
      = some ⟨40, none, 5, 5, 3⟩) ∧
    ((SharedMemory.mutateConfirmedObj
        { heapConfirmed := fun _ => ⟨40, none, 5, 5, 3⟩,
          heapPending := fun _ => ⟨40, none⟩,
          state := { status := DetectionStatus.confirmed, confirmedRef := some 0,
                     pendingRef := none, pending_count := 0, last_updated := 5 } }
        0 ⟨99, none, 5, 5, 3⟩).get_state
      = SharedMemory.get_state
        { heapConfirmed := fun _ => ⟨40, none, 5, 5, 3⟩,
          heapPending := fun _ => ⟨40, none⟩,
          state := { status := DetectionStatus.confirmed, confirmedRef := some 0,
                     pendingRef := none, pending_count := 0, last_updated := 5 } }) ∧
    (SharedMemory.derefConfirmed
        (SharedMemory.mutateConfirmedObj
          { heapConfirmed := fun _ => ⟨40, none, 5, 5, 3⟩,
            heapPending := fun _ => ⟨40, none⟩,
            state := { status := DetectionStatus.confirmed, confirmedRef := some 0,
                       pendingRef := none, pending_count := 0, last_updated := 5 } }
          0 ⟨99, none, 5, 5, 3⟩)
        ((SharedMemory.mutateConfirmedObj
          { heapConfirmed := fun _ => ⟨40, none, 5, 5, 3⟩,
            heapPending := fun _ => ⟨40, none⟩,
            state := { status := DetectionStatus.confirmed, confirmedRef := some 0,
                       pendingRef := none, pending_count := 0, last_updated := 5 } }
          0 ⟨99, none, 5, 5, 3⟩).get_state)
      = some ⟨99, none, 5, 5, 3⟩) :=
  ⟨rfl, rfl, rfl⟩

example : TimeCondition.from_string ['7', '-', '1', '9'] = some ⟨7, 19, 0, 0⟩ := by decide

example : TimeCondition.from_string ['7', ':', '3', '0', '-', '1', '9', ':', '0', '0']
    = some ⟨7, 19, 30, 0⟩ := by decide

example : TimeCondition.from_string ['i', 'n', 'v', 'a', 'l', 'i', 'd'] = none := by decide

example : TimeCondition.from_string ['2', '5', '-', '1', '9'] = none := by decide

example : TimeCondition.from_string ['7', '-', '2', '5'] = none := by decide

example : TimeCondition.from_string ['7', '-', '1', '9', 'x'] = some ⟨7, 19, 0, 0⟩ := by decide

example : TimeCondition.from_string [' ', '7', '-', '1', '9', ' '] = some ⟨7, 19, 0, 0⟩ := by
  decide

example : tcWholeMatch ['7', '-', '1', '9', 'x'] = none := by decide

example : tcWholeMatch ['7', '-', '1', '9'] = some (7, 0, 19, 0) := by decide

example : TimeCondition.toCanonicalString ⟨7, 19, 0, 0⟩ = ['7', '-', '1', '9'] := by decide

example : TimeCondition.toCanonicalString ⟨7, 19, 30, 45⟩
    = ['0', '7', ':', '3', '0', '-', '1', '9', ':', '4', '5'] := by decide

example : TimeCondition.from_string ['7', '-', '1', '2', '3'] = some ⟨7, 12, 0, 0⟩ := by decide

lemma isDigit_digitChar {d : Nat} (h : d ≤ 9) : (digitChar d).isDigit = true := by
  interval_cases d <;> decide

lemma digitVal_digitChar {d : Nat} (h : d ≤ 9) : digitVal (digitChar d) = d := by
  interval_cases d <;> decide

lemma pySpace_digitChar {d : Nat} (h : d ≤ 9) : pySpace (digitChar d) = false := by
  interval_cases d <;> decide

lemma digitChar_isnt_colon {d : Nat} (h : d ≤ 9) : (digitChar d = ':') = False := by
  interval_cases d <;> decide

lemma digitChar_isnt_dash {d : Nat} (h : d ≤ 9) : (digitChar d = '-') = False := by
  interval_cases d <;> decide

lemma dash_not_digit : ('-').isDigit = false := by decide

lemma colon_not_digit : (':').isDigit = false := by decide

lemma pySpace_dash : pySpace '-' = false := by decide

lemma pySpace_colon : pySpace ':' = false := by decide

lemma colon_isnt_dash : ((':' : Char) = '-') = False := by decide

lemma dropWhile_all_false (p : Char → Bool) (l : List Char)
    (h : ∀ c ∈ l, p c = false) : List.dropWhile p l = l := by
  cases l with
  | nil => rfl
  | cons c l => simp [List.dropWhile_cons, h c (List.mem_cons_self c l)]

lemma pyStrip_eq_self {l : List Char} (h : ∀ c ∈ l, pySpace c = false) : pyStrip l = l := by
  unfold pyStrip
  rw [dropWhile_all_false pySpace l h,
    dropWhile_all_false pySpace _ (fun c hc => h c (List.mem_reverse.mp hc)),
    List.reverse_reverse]

/-- C8: parsing the canonical string form of any valid time condition
(hours in [0,23], minutes in [0,59]) yields the original condition:
`from_string(str(condition)) == condition`. -/
theorem claim8_roundtrip (tc : TimeCondition)
    (h1 : tc.start_hour ≤ 23) (h2 : tc.end_hour ≤ 23)
    (h3 : tc.start_minute ≤ 59) (h4 : tc.end_minute ≤ 59) :
    TimeCondition.from_string (TimeCondition.toCanonicalString tc) = some tc := by
  obtain ⟨sh, eh, sm, em⟩ := tc
  simp only at h1 h2 h3 h4
  by_cases hzero : sm = 0 ∧ em = 0
  · obtain ⟨rfl, rfl⟩ := hzero
    have hcanon : TimeCondition.toCanonicalString ⟨sh, eh, 0, 0⟩
        = decimal2 sh ++ '-' :: decimal2 eh := by
      simp [TimeCondition.toCanonicalString]
    rw [hcanon]
    by_cases hsh : sh < 10
    · by_cases heh : eh < 10
      · have e : decimal2 sh ++ '-' :: decimal2 eh = [digitChar sh, '-', digitChar eh] := by
          simp [decimal2, hsh, heh]
        rw [e]
        have hmem : ∀ c ∈ [digitChar sh, '-', digitChar eh], pySpace c = false := by
          intro c hc
          simp only [List.mem_cons, List.not_mem_nil, or_false] at hc
          rcases hc with rfl | rfl | rfl
          · exact pySpace_digitChar (by omega)
          · exact pySpace_dash
          · exact pySpace_digitChar (by omega)
        simp [TimeCondition.from_string, pyStrip_eq_self hmem, tcPrefixMatch, patternThen,
          hourThen, optMinutesThen, twoDigits, oneDigit, colonMinutes, dashLit,
          isDigit_digitChar (show sh ≤ 9 by omega), digitVal_digitChar (show sh ≤ 9 by omega),
          isDigit_digitChar (show eh ≤ 9 by omega), digitVal_digitChar (show eh ≤ 9 by omega),
          dash_not_digit, h1, h2]
      · have e : decimal2 sh ++ '-' :: decimal2 eh
            = [digitChar sh, '-', digitChar (eh / 10), digitChar (eh % 10)] := by
          simp [decimal2, hsh, heh, pad2]
        rw [e]
        have hmem : ∀ c ∈ [digitChar sh, '-', digitChar (eh / 10), digitChar (eh % 10)],
            pySpace c = false := by
          intro c hc
          simp only [List.mem_cons, List.not_mem_nil, or_false] at hc
          rcases hc with rfl | rfl | rfl | rfl
          · exact pySpace_digitChar (by omega)
          · exact pySpace_dash
          · exact pySpace_digitChar (by omega)
          · exact pySpace_digitChar (by omega)
        simp [TimeCondition.from_string, pyStrip_eq_self hmem, tcPrefixMatch, patternThen,
          hourThen, optMinutesThen, twoDigits, oneDigit, colonMinutes, dashLit,
          isDigit_digitChar (show sh ≤ 9 by omega), digitVal_digitChar (show sh ≤ 9 by omega),
          isDigit_digitChar (show eh / 10 ≤ 9 by omega),
          digitVal_digitChar (show eh / 10 ≤ 9 by omega),
          isDigit_digitChar (show eh % 10 ≤ 9 by omega),
          digitVal_digitChar (show eh % 10 ≤ 9 by omega),
          dash_not_digit, Nat.div_add_mod, h1, h2]
    · by_cases heh : eh < 10
      · have e : decimal2 sh ++ '-' :: decimal2 eh
            = [digitChar (sh / 10), digitChar (sh % 10), '-', digitChar eh] := by
          simp [decimal2, hsh, heh, pad2]
        rw [e]
        have hmem : ∀ c ∈ [digitChar (sh / 10), digitChar (sh % 10), '-', digitChar eh],
            pySpace c = false := by
          intro c hc
          simp only [List.mem_cons, List.not_mem_nil, or_false] at hc
          rcases hc with rfl | rfl | rfl | rfl
          · exact pySpace_digitChar (by omega)
          · exact pySpace_digitChar (by omega)
          · exact pySpace_dash
          · exact pySpace_digitChar (by omega)
        simp [TimeCondition.from_string, pyStrip_eq_self hmem, tcPrefixMatch, patternThen,
          hourThen, optMinutesThen, twoDigits, oneDigit, colonMinutes, dashLit,
          isDigit_digitChar (show sh / 10 ≤ 9 by omega),
          digitVal_digitChar (show sh / 10 ≤ 9 by omega),
          isDigit_digitChar (show sh % 10 ≤ 9 by omega),
          digitVal_digitChar (show sh % 10 ≤ 9 by omega),
          isDigit_digitChar (show eh ≤ 9 by omega), digitVal_digitChar (show eh ≤ 9 by omega),
          dash_not_digit, digitChar_isnt_colon (show sh % 10 ≤ 9 by omega),
          digitChar_isnt_dash (show sh % 10 ≤ 9 by omega), Nat.div_add_mod, h1, h2]
      · have e : decimal2 sh ++ '-' :: decimal2 eh
            = [digitChar (sh / 10), digitChar (sh % 10), '-',
               digitChar (eh / 10), digitChar (eh % 10)] := by
          simp [decimal2, hsh, heh, pad2]
        rw [e]
        have hmem : ∀ c ∈ [digitChar (sh / 10), digitChar (sh % 10), '-',
            digitChar (eh / 10), digitChar (eh % 10)], pySpace c = false := by
          intro c hc
          simp only [List.mem_cons, List.not_mem_nil, or_false] at hc
          rcases hc with rfl | rfl | rfl | rfl | rfl
          · exact pySpace_digitChar (by omega)
          · exact pySpace_digitChar (by omega)
          · exact pySpace_dash
          · exact pySpace_digitChar (by omega)
          · exact pySpace_digitChar (by omega)
        simp [TimeCondition.from_string, pyStrip_eq_self hmem, tcPrefixMatch, patternThen,
          hourThen, optMinutesThen, twoDigits, oneDigit, colonMinutes, dashLit,
          isDigit_digitChar (show sh / 10 ≤ 9 by omega),
          digitVal_digitChar (show sh / 10 ≤ 9 by omega),
          isDigit_digitChar (show sh % 10 ≤ 9 by omega),
          digitVal_digitChar (show sh % 10 ≤ 9 by omega),
          isDigit_digitChar (show eh / 10 ≤ 9 by omega),
          digitVal_digitChar (show eh / 10 ≤ 9 by omega),
          isDigit_digitChar (show eh % 10 ≤ 9 by omega),
          digitVal_digitChar (show eh % 10 ≤ 9 by omega),
          dash_not_digit, digitChar_isnt_colon (show sh % 10 ≤ 9 by omega),
          digitChar_isnt_dash (show sh % 10 ≤ 9 by omega), Nat.div_add_mod, h1, h2]
  · have hcanon : TimeCondition.toCanonicalString ⟨sh, eh, sm, em⟩
        = [digitChar (sh / 10), digitChar (sh % 10), ':',
           digitChar (sm / 10), digitChar (sm % 10), '-',
           digitChar (eh / 10), digitChar (eh % 10), ':',
           digitChar (em / 10), digitChar (em % 10)] := by
      simp [TimeCondition.toCanonicalString, hzero, pad2]
    rw [hcanon]
    have hmem : ∀ c ∈ [digitChar (sh / 10), digitChar (sh % 10), ':',
        digitChar (sm / 10), digitChar (sm % 10), '-',
        digitChar (eh / 10), digitChar (eh % 10), ':',
        digitChar (em / 10), digitChar (em % 10)], pySpace c = false := by
      intro c hc
      simp only [List.mem_cons, List.not_mem_nil, or_false] at hc
      rcases hc with rfl | rfl | rfl | rfl | rfl | rfl | rfl | rfl | rfl | rfl | rfl
      · exact pySpace_digitChar (by omega)
      · exact pySpace_digitChar (by omega)
      · exact pySpace_colon
      · exact pySpace_digitChar (by omega)
      · exact pySpace_digitChar (by omega)
      · exact pySpace_dash
      · exact pySpace_digitChar (by omega)
      · exact pySpace_digitChar (by omega)
      · exact pySpace_colon
      · exact pySpace_digitChar (by omega)
      · exact pySpace_digitChar (by omega)
    simp [TimeCondition.from_string, pyStrip_eq_self hmem, tcPrefixMatch, patternThen,
      hourThen, optMinutesThen, twoDigits, oneDigit, colonMinutes, dashLit,
      isDigit_digitChar (show sh / 10 ≤ 9 by omega),
      digitVal_digitChar (show sh / 10 ≤ 9 by omega),
      isDigit_digitChar (show sh % 10 ≤ 9 by omega),
      digitVal_digitChar (show sh % 10 ≤ 9 by omega),
      isDigit_digitChar (show sm / 10 ≤ 9 by omega),
      digitVal_digitChar (show sm / 10 ≤ 9 by omega),
      isDigit_digitChar (show sm % 10 ≤ 9 by omega),
      digitVal_digitChar (show sm % 10 ≤ 9 by omega),
      isDigit_digitChar (show eh / 10 ≤ 9 by omega),
      digitVal_digitChar (show eh / 10 ≤ 9 by omega),
      isDigit_digitChar (show eh % 10 ≤ 9 by omega),
      digitVal_digitChar (show eh % 10 ≤ 9 by omega),
      isDigit_digitChar (show em / 10 ≤ 9 by omega),
      digitVal_digitChar (show em / 10 ≤ 9 by omega),
      isDigit_digitChar (show em % 10 ≤ 9 by omega),
      digitVal_digitChar (show em % 10 ≤ 9 by omega),
      colon_not_digit, dash_not_digit,
      digitChar_isnt_colon (show sh % 10 ≤ 9 by omega),
      digitChar_isnt_dash (show sm % 10 ≤ 9 by omega),
      digitChar_isnt_colon (show sm % 10 ≤ 9 by omega),
      digitChar_isnt_colon (show eh % 10 ≤ 9 by omega),
      digitChar_isnt_dash (show em % 10 ≤ 9 by omega),
      colon_isnt_dash, Nat.div_add_mod, h1, h2, h3, h4]

/-- Witness for C8 at the condition 07:30–19:45. -/
theorem claim8_roundtrip_witness :
    (7 ≤ 23 ∧ 19 ≤ 23 ∧ 30 ≤ 59 ∧ 45 ≤ 59) ∧
    TimeCondition.from_string
        (TimeCondition.toCanonicalString ⟨7, 19, 30, 45⟩) = some ⟨7, 19, 30, 45⟩ :=
  ⟨by decide,
   claim8_roundtrip ⟨7, 19, 30, 45⟩ (by decide) (by decide) (by decide) (by decide)⟩

/-- C9 counterexample: `"7-19x"` does not match the form
`H(:MM)?-H(:MM)?` as a whole string (and is not out of range), yet
`from_string` returns a condition for it — `re.match` only anchors the
pattern at the start, so trailing garbage is accepted.  This refutes
"returns no value exactly when the string is malformed or out of
range". -/
theorem claim9_prefix_garbage_cex :
    tcWholeMatch ['7', '-', '1', '9', 'x'] = none ∧
    TimeCondition.from_string ['7', '-', '1', '9', 'x'] = some ⟨7, 19, 0, 0⟩ := by
  refine ⟨by decide, by decide⟩

/-- C9 (amended): `from_string` is total by construction and performs the
range check on whatever the greedy prefix match produced, so every
condition it returns has hours in [0,23] and minutes in [0,59]; strings
it rejects are exactly those without an in-range prefix match, and
well-formed strings with trailing garbage are accepted rather than
rejected (see `claim9_prefix_garbage_cex`). -/
theorem claim9_from_string_in_range (s : List Char) (tc : TimeCondition)
    (h : TimeCondition.from_string s = some tc) :
    tc.start_hour ≤ 23 ∧ tc.end_hour ≤ 23 ∧ tc.start_minute ≤ 59 ∧ tc.end_minute ≤ 59 := by
  unfold TimeCondition.from_string at h
  rcases hm : tcPrefixMatch (pyStrip s) with _ | ⟨sh, sm, eh, em⟩
  · rw [hm] at h; exact absurd h (by simp)
  · rw [hm] at h
    simp only [] at h
    split_ifs at h with hh hmm
    injection h with h'
    subst h'
    exact ⟨hh.1, hh.2, hmm.1, hmm.2⟩

/-- Witness for C9's amended theorem at the accepted input `"7-19x"`. -/
theorem claim9_from_string_in_range_witness :
    TimeCondition.from_string ['7', '-', '1', '9', 'x'] = some ⟨7, 19, 0, 0⟩ ∧
    (7 ≤ 23 ∧ 19 ≤ 23 ∧ 0 ≤ 59 ∧ 0 ≤ 59) :=
  ⟨by decide,
   claim9_from_string_in_range ['7', '-', '1', '9', 'x'] ⟨7, 19, 0, 0⟩ (by decide)⟩
